import Mathlib

/-!
Shallow embedding of the work-time-tracker addon's time bookkeeping
(`src/core/time_data.py`, `src/utils/formatting.py`).

Timestamps are Unix seconds, stored in `IntProperty` fields and modelled
as `Int`.  All arithmetic the Python code performs on them (differences,
`max`, `min`, sums) is integer-valued, so `total_time` (a Python float
holding an integral value) is modelled as `Int` as well.  The Blender
`PropertyGroup` attached to the scene is modelled as a plain structure
`WTT_TimeData`; `scene.wtt_time_data` being absent is modelled by
`Option WTT_TimeData`.  Each Python method becomes a pure function from
the pre-state (plus the current clock reading `now`) to the post-state
and return value.
-/

namespace WTT

/-- A work session (`WTT_TimeSession` PropertyGroup): `end` 0 (treated as
`end <= 0`) marks an active / unfinished session. -/
structure WTT_TimeSession where
  id : Int := 0
  start : Int := 0
  «end» : Int := 0
  comment : String := ""
  deriving Repr, DecidableEq

/-- A break inside a session (`WTT_BreakSession` PropertyGroup): `end` 0
marks an active / unfinished break. -/
structure WTT_BreakSession where
  id : Int := 0
  session_id : Int := 0
  start : Int := 0
  «end» : Int := 0
  reason : String := "inactivity"
  comment : String := ""
  deriving Repr, DecidableEq

/-- The data format version constant `DATA_VERSION`. -/
def DATA_VERSION : Int := 1

/-- The scene-attached `WTT_TimeData` PropertyGroup. -/
structure WTT_TimeData where
  version : Int := DATA_VERSION
  total_time : Int := 0
  last_save_time : Int := 0
  file_creation_time : Int := 0
  file_id : String := ""
  sessions : List WTT_TimeSession := []
  active_session_index : Int := -1
  break_threshold_seconds : Int := 300
  last_activity_time : Int := 0
  is_on_break : Bool := false
  break_sessions : List WTT_BreakSession := []
  active_break_index : Int := -1
  deriving Repr, DecidableEq

/-- The Python-side `TimeData` singleton object (fields of the class,
not of the PropertyGroup).  `file_id = none` models Python `None`. -/
structure TimeData where
  total_time : Int := 0
  last_save_time : Int := 0
  file_creation_time : Int := 0
  file_id : Option String := none
  data_loaded : Bool := false
  deriving Repr, DecidableEq

/-- `TimeData.__init__` at clock reading `now`. -/
def TimeData.init (now : Int) : TimeData :=
  { total_time := 0, last_save_time := now, file_creation_time := now
    file_id := none, data_loaded := false }

/-- Python `int()` truncation toward zero on a rational. -/
def pyInt (q : ℚ) : Int :=
  if 0 ≤ q then q.floor else -(-q).floor

/-- Python `f"{i:02d}"`: decimal rendering zero-filled to width 2. -/
def pad2 (i : Int) : String :=
  if 0 ≤ i ∧ i < 10 then "0" ++ toString i else toString i

/-- `format_time` from `src/utils/formatting.py`: `divmod` by 3600 then
by 60 on `int(seconds)`, each component `:02d`-formatted.  Python
`divmod` with a positive divisor is floor division / modulus, i.e.
`Int.ediv` / `Int.emod`. -/
def format_time (seconds : ℚ) : String :=
  let n := pyInt seconds
  let hours := n / 3600
  let remainder := n % 3600
  let minutes := remainder / 60
  let secs := remainder % 60
  pad2 hours ++ ":" ++ pad2 minutes ++ ":" ++ pad2 secs

/-- `TimeData._sum_breaks_for_session`: looks up the first session whose
`id` equals `session_id`; sums, over the breaks of that session with
positive start, the break span clamped into `[session.start, end_cap]`. -/
def sum_breaks_for_session (p : WTT_TimeData) (session_id end_cap : Int) : Int :=
  match p.sessions.find? (fun s => s.id == session_id) with
  | none => 0
  | some session =>
      let start_cap := session.start
      let total := (p.break_sessions.map (fun b =>
        if b.session_id ≠ session_id ∨ b.start ≤ 0 then 0
        else
          let bstart := max start_cap b.start
          let bend := if b.«end» > 0 then b.«end» else end_cap
          let bend := min bend end_cap
          max 0 (bend - bstart))).sum
      max 0 total

/-- The contribution of one session to the total in
`TimeData.update_total_time`: sessions with non-positive start are
skipped; otherwise `max(0, base - breaks)` with `base = max(0, end_cap -
start)`. -/
def session_work (p : WTT_TimeData) (now : Int) (s : WTT_TimeSession) : Int :=
  let end_cap := if s.«end» ≤ 0 then now else s.«end»
  if s.start ≤ 0 then 0
  else
    let base := max 0 (end_cap - s.start)
    let breaks := sum_breaks_for_session p s.id end_cap
    max 0 (base - breaks)

/-- The accumulated loop total of `TimeData.update_total_time`. -/
def upd_total (p : WTT_TimeData) (now : Int) : Int :=
  (p.sessions.map (session_work p now)).sum

/-- `TimeData.update_total_time` when the PropertyGroup is present. -/
def update_total_timeP (td : TimeData) (p : WTT_TimeData) (now : Int) :
    TimeData × WTT_TimeData :=
  let t := upd_total p now
  ({ td with total_time := t }, { p with total_time := t })

/-- `TimeData.update_total_time` (`self.total_time := 0` when the scene
PropertyGroup is missing). -/
def update_total_time (td : TimeData) (pg : Option WTT_TimeData) (now : Int) :
    TimeData × Option WTT_TimeData :=
  match pg with
  | none => ({ td with total_time := 0 }, none)
  | some p =>
      let (td, p) := update_total_timeP td p now
      (td, some p)

/-- `TimeData.get_current_session`: the session at `active_session_index`
when that index is in range, otherwise the last unfinished session. -/
def get_current_session (pg : Option WTT_TimeData) : Option WTT_TimeSession :=
  match pg with
  | none => none
  | some p =>
      let idx := p.active_session_index
      if 0 ≤ idx ∧ idx < (p.sessions.length : Int) then
        p.sessions[idx.toNat]?
      else
        p.sessions.reverse.find? (fun s => decide (s.«end» ≤ 0))

/-- `TimeData._sync_to_pg`: writes the five metadata fields into the
PropertyGroup (`pg.file_id = self.file_id or ""`). -/
def sync_to_pgP (td : TimeData) (p : WTT_TimeData) : WTT_TimeData :=
  { p with
    version := DATA_VERSION
    total_time := td.total_time
    last_save_time := td.last_save_time
    file_creation_time := td.file_creation_time
    file_id := td.file_id.getD "" }

/-- `TimeData.save_data` when the PropertyGroup is present: recompute the
total, stamp `last_save_time` with the current time, sync metadata. -/
def save_dataP (td : TimeData) (p : WTT_TimeData) (now : Int) :
    TimeData × WTT_TimeData :=
  let (td, p) := update_total_timeP td p now
  let td := { td with last_save_time := now }
  (td, sync_to_pgP td p)

/-- `TimeData.save_data`. -/
def save_data (td : TimeData) (pg : Option WTT_TimeData) (now : Int) :
    TimeData × Option WTT_TimeData :=
  match pg with
  | none =>
      let (td, _) := update_total_time td none now
      ({ td with last_save_time := now }, none)
  | some p =>
      let (td, p) := save_dataP td p now
      (td, some p)

/-- The inner loop body of `TimeData.end_active_sessions`: a break of
the just-ended session `s` (matching `session_id`, positive start,
`end <= 0`) gets `end := now`. -/
def close_break_for (now : Int) (s : WTT_TimeSession) (b : WTT_BreakSession) :
    WTT_BreakSession :=
  if b.session_id = s.id ∧ 0 < b.start ∧ b.«end» ≤ 0 then { b with «end» := now } else b

/-- One iteration of the session loop of `TimeData.end_active_sessions`:
an unfinished session gets `end := now` and every still-open break that
belongs to it gets `end := now` as well. -/
def end_one_session (now : Int)
    (acc : List WTT_TimeSession × List WTT_BreakSession × Nat)
    (s : WTT_TimeSession) : List WTT_TimeSession × List WTT_BreakSession × Nat :=
  let (done, breaks, cnt) := acc
  if s.«end» ≤ 0 then
    (done ++ [{ s with «end» := now }], breaks.map (close_break_for now s), cnt + 1)
  else
    (done ++ [s], breaks, cnt)

/-- `TimeData.end_active_sessions` when the PropertyGroup is present. -/
def end_active_sessionsP (td : TimeData) (p : WTT_TimeData) (now : Int) :
    (TimeData × WTT_TimeData) × Nat :=
  let r := p.sessions.foldl (end_one_session now) ([], p.break_sessions, 0)
  let p := { p with sessions := r.1, break_sessions := r.2.1 }
  if r.2.2 ≠ 0 then
    let p := { p with active_session_index := -1, is_on_break := false,
                      active_break_index := -1 }
    let (td, p) := update_total_timeP td p now
    ((td, p), r.2.2)
  else ((td, p), r.2.2)

/-- `TimeData.end_active_sessions` (returns 0 with no change when the
PropertyGroup is missing). -/
def end_active_sessions (td : TimeData) (pg : Option WTT_TimeData) (now : Int) :
    (TimeData × Option WTT_TimeData) × Nat :=
  match pg with
  | none => ((td, none), 0)
  | some p =>
      let (r, n) := end_active_sessionsP td p now
      ((r.1, some r.2), n)

/-- `TimeData.start_session` when the PropertyGroup is present: end the
active sessions, append a fresh session (`id` = new collection length,
`start = now`, `end = 0`, empty comment), point `active_session_index`
at it, reset the activity/break state and recompute the total. -/
def start_sessionP (td : TimeData) (p : WTT_TimeData) (now : Int) :
    (TimeData × WTT_TimeData) × Int :=
  let r := end_active_sessionsP td p now
  let td := r.1.1
  let p := r.1.2
  let item : WTT_TimeSession :=
    { id := (p.sessions.length : Int) + 1, start := now, «end» := 0, comment := "" }
  let p := { p with
    sessions := p.sessions ++ [item]
    active_session_index := (p.sessions.length : Int)
    last_activity_time := now
    is_on_break := false
    active_break_index := -1 }
  let (td, p) := update_total_timeP td p now
  ((td, p), item.id)

/-- `TimeData.start_session` (returns -1 when the PropertyGroup is
missing). -/
def start_session (td : TimeData) (pg : Option WTT_TimeData) (now : Int) :
    (TimeData × Option WTT_TimeData) × Int :=
  match pg with
  | none => ((td, none), -1)
  | some p =>
      let (r, i) := start_sessionP td p now
      ((r.1, some r.2), i)

/-- `TimeData.switch_session`: end active sessions, start a new one,
save, return `True`. -/
def switch_session (td : TimeData) (pg : Option WTT_TimeData) (now : Int) :
    (TimeData × Option WTT_TimeData) × Bool :=
  let r := end_active_sessions td pg now
  let r2 := start_session r.1.1 r.1.2 now
  let r3 := save_data r2.1.1 r2.1.2 now
  (r3, true)

/-- `TimeData.reset_current_session` when the PropertyGroup is present:
fails (returns `False`, no change) unless `active_session_index` is in
range; otherwise restarts the indexed session at `now`, rebuilds the
break collection keeping only breaks of other sessions (copying every
field), clears the break state, recomputes the total and saves. -/
def reset_current_sessionP (td : TimeData) (p : WTT_TimeData) (now : Int) :
    (TimeData × WTT_TimeData) × Bool :=
  if h : 0 ≤ p.active_session_index ∧ p.active_session_index < (p.sessions.length : Int) then
    let s0 := p.sessions.get ⟨p.active_session_index.toNat, by omega⟩
    let s := { s0 with start := now, «end» := 0 }
    let p := { p with sessions := p.sessions.set p.active_session_index.toNat s }
    let to_keep := p.break_sessions.filter (fun b => decide (b.session_id ≠ s.id))
    let p := { p with break_sessions := to_keep.map (fun b : WTT_BreakSession =>
      { id := b.id, session_id := b.session_id, start := b.start, «end» := b.«end»,
        reason := b.reason, comment := b.comment }) }
    let p := { p with is_on_break := false, active_break_index := -1 }
    let (td, p) := update_total_timeP td p now
    let (td, p) := save_dataP td p now
    ((td, p), true)
  else ((td, p), false)

/-- `TimeData.reset_current_session`. -/
def reset_current_session (td : TimeData) (pg : Option WTT_TimeData) (now : Int) :
    (TimeData × Option WTT_TimeData) × Bool :=
  match pg with
  | none => ((td, none), false)
  | some p =>
      let (r, b) := reset_current_sessionP td p now
      ((r.1, some r.2), b)

/-- `TimeData.reset` when the PropertyGroup is present: reset the
metadata, sync it, clear both collections and the break/activity state,
then start a fresh session. -/
def resetP (td : TimeData) (p : WTT_TimeData) (now : Int) : TimeData × WTT_TimeData :=
  let td := { td with total_time := 0, last_save_time := now, file_creation_time := now }
  let p := sync_to_pgP td p
  let p := { p with sessions := [], break_sessions := [], active_session_index := -1,
                    is_on_break := false, active_break_index := -1,
                    last_activity_time := now }
  (start_sessionP td p now).1

/-- `TimeData.reset` (no effect when the PropertyGroup is missing). -/
def reset (td : TimeData) (pg : Option WTT_TimeData) (now : Int) :
    TimeData × Option WTT_TimeData :=
  match pg with
  | none => (td, none)
  | some p =>
      let (td, p) := resetP td p now
      (td, some p)

/-- `TimeData.load_data`.  `filebase` is `bpy.path.basename
(bpy.data.filepath)` when a file path exists, `none` otherwise (then the
file id falls back to `"unsaved_file"`). -/
def load_data (td : TimeData) (pg : Option WTT_TimeData) (filebase : Option String)
    (now : Int) : TimeData × Option WTT_TimeData :=
  let td := { td with file_id := some (filebase.getD "unsaved_file") }
  match pg with
  | none => (td, none)
  | some p =>
      let p := if p.last_activity_time ≤ 0 then { p with last_activity_time := now } else p
      let p := if p.file_id = "" then { p with file_id := td.file_id.getD "" } else p
      let (td, p) := update_total_timeP td p now
      (td, some p)

/-- `load_handler`: on the first load, read the data, mark it loaded and
start a new session; afterwards a no-op. -/
def load_handler (td : TimeData) (pg : Option WTT_TimeData) (filebase : Option String)
    (now : Int) : TimeData × Option WTT_TimeData :=
  if td.data_loaded then (td, pg)
  else
    let (td, pg) := load_data td pg filebase now
    let td := { td with data_loaded := true }
    (start_session td pg now).1

/-- `save_handler`: update `file_id` from the saved file path (when one
exists), then `save_data` — the current session is deliberately NOT
ended ("Just update the current session (don't end it) and save"). -/
def save_handler (td : TimeData) (pg : Option WTT_TimeData) (filebase : Option String)
    (now : Int) : TimeData × Option WTT_TimeData :=
  let td := match filebase with
            | some b => { td with file_id := some b }
            | none => td
  save_data td pg now

/-- The break-management core of the timer callback (after the
`last_activity_time` repair): either open a break (idle for at least
the clamped preference threshold while not on break) or close the
active break (idle under one second while on break). -/
def idle_break_core (p : WTT_TimeData) (now : Int) (pref_threshold : Option Int) :
    WTT_TimeData :=
  let idle := now - p.last_activity_time
  let threshold := max 30 (pref_threshold.getD 300)
  if ¬p.is_on_break ∧ threshold ≤ idle then
    let current := get_current_session (some p)
    let start_candidate := if 0 < p.last_activity_time then p.last_activity_time else now - idle
    let bi : WTT_BreakSession :=
      { id := (p.break_sessions.length : Int) + 1
        session_id := (current.map (fun c => c.id)).getD 0
        start := match current with
                 | some c => max c.start start_candidate
                 | none => start_candidate
        «end» := 0
        reason := "inactivity"
        comment := "" }
    { p with break_sessions := p.break_sessions ++ [bi]
             active_break_index := (p.break_sessions.length : Int)
             is_on_break := true }
  else if p.is_on_break ∧ idle < 1 then
    if h : 0 ≤ p.active_break_index ∧
        p.active_break_index < (p.break_sessions.length : Int) then
      { p with
        break_sessions := p.break_sessions.set p.active_break_index.toNat
          { p.break_sessions.get ⟨p.active_break_index.toNat, by omega⟩ with «end» := now }
        last_activity_time := now, is_on_break := false, active_break_index := -1 }
    else
      { p with last_activity_time := now, is_on_break := false, active_break_index := -1 }
  else p

/-- The idle-detection / break-management block of
`update_time_callback` (the body of `if pg:` up to the total update):
repair a non-positive `last_activity_time`, then run the break core. -/
def idle_break_step (p : WTT_TimeData) (now : Int) (pref_threshold : Option Int) :
    WTT_TimeData :=
  idle_break_core
    (if p.last_activity_time ≤ 0 then { p with last_activity_time := now } else p)
    now pref_threshold

/-- `update_time_callback` (state effects only; handler re-registration
is host glue).  `pref_threshold` is the addon preference
`break_threshold_seconds` (`none` when reading it raises), `filebase`
the basename of `bpy.data.filepath` (`none` when unsaved). -/
def update_time_callback (td : TimeData) (pg : Option WTT_TimeData) (now : Int)
    (pref_threshold : Option Int) (filebase : Option String) :
    TimeData × Option WTT_TimeData :=
  let pg := pg.map (fun p => idle_break_step p now pref_threshold)
  let (td, pg) := update_total_time td pg now
  match filebase with
  | some b =>
      if td.file_id ≠ some b then
        let r := end_active_sessions td pg now
        let td := { r.1.1 with file_id := some b }
        let r2 := start_session td r.1.2 now
        save_data r2.1.1 r2.1.2 now
      else (td, pg)
  | none => (td, pg)

/-! ### Spec-side definitions and shared concrete states -/

/-- The effect of `end_active_sessions` on one session, as the claim
states it: a session with `end <= 0` gets `end := now`. -/
def close_session (now : Int) (s : WTT_TimeSession) : WTT_TimeSession :=
  if s.«end» ≤ 0 then { s with «end» := now } else s

/-- A session is active/open exactly when its end timestamp is the
sentinel (`end <= 0`). -/
def openB (s : WTT_TimeSession) : Bool := decide (s.«end» ≤ 0)

/-- Number of open sessions in a list. -/
def openCount (l : List WTT_TimeSession) : Nat := l.countP openB

/-- The net effect of `end_active_sessions` on one break: it is closed
(`end := now`) exactly when it is open (`start > 0`, `end <= 0`) and
belongs to a session of `l` that was open. -/
def close_break_all (now : Int) (l : List WTT_TimeSession) (b : WTT_BreakSession) :
    WTT_BreakSession :=
  if 0 < b.start ∧ b.«end» ≤ 0 ∧ l.any (fun s => decide (s.«end» ≤ 0 ∧ s.id = b.session_id))
  then { b with «end» := now } else b

/-- Modelled from the claim C1 wording: the clamped break overlap of
session `s`, summed over the breaks of `s` with positive start. -/
def spec_break_sum (p : WTT_TimeData) (s : WTT_TimeSession) (end_cap : Int) : Int :=
  (p.break_sessions.map (fun b =>
    if b.session_id = s.id ∧ 0 < b.start then
      max 0 (min (if 0 < b.«end» then b.«end» else end_cap) end_cap - max s.start b.start)
    else 0)).sum

/-- Modelled from the claim C1 wording: the total over sessions with
positive start of `max(0, end_cap - start - B)`, `end_cap` being the
session end when positive and the current time otherwise. -/
def spec_total_time (p : WTT_TimeData) (now : Int) : Int :=
  (p.sessions.map (fun s =>
    let end_cap := if 0 < s.«end» then s.«end» else now
    if 0 < s.start then max 0 (end_cap - s.start - spec_break_sum p s end_cap) else 0)).sum

/-- The fresh session appended by `start_session`: id = new collection
length, start = now, end = 0 (open), empty comment. -/
def new_session_item (p : WTT_TimeData) (now : Int) : WTT_TimeSession :=
  { id := (p.sessions.length : Int) + 1, start := now, «end» := 0, comment := "" }

/-- The PropertyGroup after `start_session` (without the final total
recomputation): active sessions and their breaks closed, the fresh
session appended and made active, activity/break state reset. -/
def start_pg (p : WTT_TimeData) (now : Int) : WTT_TimeData :=
  { p with
    sessions := p.sessions.map (close_session now) ++ [new_session_item p now]
    break_sessions := p.break_sessions.map (close_break_all now p.sessions)
    active_session_index := (p.sessions.length : Int)
    last_activity_time := now
    is_on_break := false
    active_break_index := -1 }

/-- The idle time used by the timer callback: current time minus the
(repaired) last activity time. -/
def idle_of (p : WTT_TimeData) (now : Int) : Int :=
  now - (if p.last_activity_time ≤ 0 then now else p.last_activity_time)

/-- The break threshold used by the timer callback: the preference value
(300 when unavailable) clamped to a minimum of 30 seconds. -/
def threshold_of (pref : Option Int) : Int := max 30 (pref.getD 300)

/-- The break record appended by the creation branch of the timer
callback, phrased over the pre-repair state: the repaired activity time
is `la`, the break starts at the activity time clamped to the current
session's start. -/
def new_break_item (p : WTT_TimeData) (now : Int) : WTT_BreakSession :=
  let la := if p.last_activity_time ≤ 0 then now else p.last_activity_time
  let start_candidate := if 0 < la then la else now - (now - la)
  { id := (p.break_sessions.length : Int) + 1
    session_id := ((get_current_session (some p)).map (fun c => c.id)).getD 0
    start := match get_current_session (some p) with
             | some c => max c.start start_candidate
             | none => start_candidate
    «end» := 0, reason := "inactivity", comment := "" }

/-- Concrete state for the C2 boundary: one open session, idle exactly
at the (default) threshold when the callback runs at time 400. -/
def pgC2 : WTT_TimeData :=
  { sessions := [{ id := 1, start := 50, «end» := 0, comment := "" }],
    active_session_index := 0, last_activity_time := 100, is_on_break := false }

/-- A shared concrete state: one finished session with a finished break,
one open session, the open one active. -/
def sW1 : WTT_TimeSession := { id := 1, start := 100, «end» := 500, comment := "" }

/-- The open session of the shared concrete state. -/
def sW2 : WTT_TimeSession := { id := 2, start := 600, «end» := 0, comment := "" }

/-- A finished break of session 1 in the shared concrete state. -/
def bW1 : WTT_BreakSession :=
  { id := 1, session_id := 1, start := 200, «end» := 300, reason := "inactivity", comment := "" }

/-- The shared concrete PropertyGroup state. -/
def pgW : WTT_TimeData :=
  { sessions := [sW1, sW2], break_sessions := [bW1], active_session_index := 1,
    last_activity_time := 600, is_on_break := false, active_break_index := -1 }

/-! ### The C8 session invariant and transition system -/

/-- C8's invariant: at most one session is open, and a non-negative
`active_session_index` indexes an existing session whose end is the
open sentinel (`end <= 0`, i.e. its open flag is `true`). -/
def SessionInv (p : WTT_TimeData) : Prop :=
  openCount p.sessions ≤ 1 ∧
  (0 ≤ p.active_session_index →
    (p.sessions.map openB)[p.active_session_index.toNat]? = some true)

/-- One user-visible transition of the tracker: any of the lifecycle
operations or handlers run at a positive clock reading `now`, with the
scene PropertyGroup present before and after. -/
inductive Step : TimeData × WTT_TimeData → TimeData × WTT_TimeData → Prop where
  | start_session (td : TimeData) (p : WTT_TimeData) (td' : TimeData) (p' : WTT_TimeData)
      (now ret : Int) (hnow : 0 < now)
      (h : start_session td (some p) now = ((td', some p'), ret)) :
      Step (td, p) (td', p')
  | switch_session (td : TimeData) (p : WTT_TimeData) (td' : TimeData) (p' : WTT_TimeData)
      (now : Int) (ret : Bool) (hnow : 0 < now)
      (h : switch_session td (some p) now = ((td', some p'), ret)) :
      Step (td, p) (td', p')
  | end_active_sessions (td : TimeData) (p : WTT_TimeData) (td' : TimeData)
      (p' : WTT_TimeData) (now : Int) (n : Nat) (hnow : 0 < now)
      (h : end_active_sessions td (some p) now = ((td', some p'), n)) :
      Step (td, p) (td', p')
  | reset (td : TimeData) (p : WTT_TimeData) (td' : TimeData) (p' : WTT_TimeData)
      (now : Int) (hnow : 0 < now)
      (h : reset td (some p) now = (td', some p')) :
      Step (td, p) (td', p')
  | reset_current_session (td : TimeData) (p : WTT_TimeData) (td' : TimeData)
      (p' : WTT_TimeData) (now : Int) (ret : Bool) (hnow : 0 < now)
      (h : reset_current_session td (some p) now = ((td', some p'), ret)) :
      Step (td, p) (td', p')
  | load_handler (td : TimeData) (p : WTT_TimeData) (td' : TimeData) (p' : WTT_TimeData)
      (fb : Option String) (now : Int) (hnow : 0 < now)
      (h : load_handler td (some p) fb now = (td', some p')) :
      Step (td, p) (td', p')
  | save_handler (td : TimeData) (p : WTT_TimeData) (td' : TimeData) (p' : WTT_TimeData)
      (fb : Option String) (now : Int) (hnow : 0 < now)
      (h : save_handler td (some p) fb now = (td', some p')) :
      Step (td, p) (td', p')
  | update_time_callback (td : TimeData) (p : WTT_TimeData) (td' : TimeData)
      (p' : WTT_TimeData) (now : Int) (pref : Option Int) (fb : Option String)
      (hnow : 0 < now)
      (h : update_time_callback td (some p) now pref fb = (td', some p')) :
      Step (td, p) (td', p')

/-- States reachable from a fresh (default) PropertyGroup — empty
session list, `active_session_index = -1` — by any sequence of
lifecycle operations, handler runs and timer updates. -/
inductive Reachable : TimeData × WTT_TimeData → Prop where
  | init (t0 : Int) : Reachable (TimeData.init t0, ({} : WTT_TimeData))
  | step (σ σ' : TimeData × WTT_TimeData) (hr : Reachable σ) (hs : Step σ σ') :
      Reachable σ'

/-! ### Helper lemmas -/

example : format_time 3661 = "01:01:01" := by rfl
example : format_time 0 = "00:00:00" := by rfl
example : format_time (mkRat 73259 10) = "02:02:05" := by decide

theorem pyInt_of_nonneg (q : ℚ) (h : 0 ≤ q) : pyInt q = ⌊q⌋ := by
  rw [pyInt, if_pos h, Rat.floor_def', Rat.floor_def]

theorem floor_div_3600 (q : ℚ) : ⌊q / 3600⌋ = ⌊q⌋ / 3600 := by
  have h0 : (0:ℚ) < 3600 := by norm_num
  rw [Int.floor_eq_iff]
  constructor
  · rw [le_div_iff₀ h0]
    have h1 : ((⌊q⌋ / 3600 * 3600 : ℤ) : ℚ) ≤ (⌊q⌋ : ℚ) := by
      exact_mod_cast (by omega : ⌊q⌋ / 3600 * 3600 ≤ ⌊q⌋)
    calc ((⌊q⌋ / 3600 : ℤ) : ℚ) * 3600 = ((⌊q⌋ / 3600 * 3600 : ℤ) : ℚ) := by push_cast; ring
      _ ≤ (⌊q⌋ : ℚ) := h1
      _ ≤ q := Int.floor_le q
  · rw [div_lt_iff₀ h0]
    have h2 : ((⌊q⌋ : ℚ) + 1) ≤ ((⌊q⌋ / 3600 + 1 : ℤ) : ℚ) * 3600 := by
      have : (⌊q⌋ + 1 : ℤ) ≤ (⌊q⌋ / 3600 + 1) * 3600 := by omega
      calc ((⌊q⌋ : ℚ) + 1) = ((⌊q⌋ + 1 : ℤ) : ℚ) := by push_cast; ring
        _ ≤ (((⌊q⌋ / 3600 + 1) * 3600 : ℤ) : ℚ) := by exact_mod_cast this
        _ = ((⌊q⌋ / 3600 + 1 : ℤ) : ℚ) * 3600 := by push_cast; ring
    calc q < (⌊q⌋ : ℚ) + 1 := Int.lt_floor_add_one q
      _ ≤ ((⌊q⌋ / 3600 + 1 : ℤ) : ℚ) * 3600 := h2
      _ = ((⌊q⌋ / 3600 : ℤ) : ℚ) * 3600 + 3600 := by push_cast; ring
      _ = (↑(⌊q⌋ / 3600) + 1) * 3600 := by ring

theorem toDigitsCore_length_ge (f : Nat) : ∀ (n : Nat) (ds : List Char), 0 < f →
    ds.length + 1 ≤ (Nat.toDigitsCore 10 f n ds).length := by
  induction f with
  | zero => intro n ds h; omega
  | succ f ih =>
    intro n ds _
    show ds.length + 1 ≤ (Nat.toDigitsCore 10 (f + 1) n ds).length
    rw [Nat.toDigitsCore]
    by_cases hnz : n / 10 = 0
    · simp [hnz]
    · simp only [hnz, if_false]
      cases f with
      | zero => simp [Nat.toDigitsCore]
      | succ f' =>
          have := ih (n / 10) (Nat.digitChar (n % 10) :: ds) (Nat.succ_pos f')
          simp only [List.length_cons] at this
          omega

theorem repr_length_ge_one (n : Nat) : 1 ≤ (Nat.repr n).length := by
  have h := toDigitsCore_length_ge (n + 1) n [] (Nat.succ_pos n)
  simpa [Nat.repr, Nat.toDigits, String.length, List.asString] using h

theorem repr_length_ge_two (n : Nat) (h : 10 ≤ n) : 2 ≤ (Nat.repr n).length := by
  have hnz : ¬ n / 10 = 0 := by omega
  have hstep : Nat.toDigitsCore 10 (n + 1) n [] =
      Nat.toDigitsCore 10 n (n / 10) [Nat.digitChar (n % 10)] := by
    rw [Nat.toDigitsCore]
    simp [hnz]
  have h2 := toDigitsCore_length_ge n (n / 10) [Nat.digitChar (n % 10)] (by omega)
  simp only [List.length_cons, List.length_nil] at h2
  have : 2 ≤ (Nat.toDigitsCore 10 (n + 1) n []).length := by
    rw [hstep]; omega
  simpa [Nat.repr, Nat.toDigits, String.length, List.asString] using this

theorem toString_int_ofNat (n : Nat) : toString ((n : Nat) : Int) = Nat.repr n := rfl

theorem pad2_length (i : Int) (h : 0 ≤ i) : 2 ≤ (pad2 i).length := by
  obtain ⟨n, rfl⟩ := Int.eq_ofNat_of_zero_le h
  rw [pad2]
  by_cases h10 : (0:Int) ≤ (n : Int) ∧ (n : Int) < 10
  · rw [if_pos h10, String.length_append, toString_int_ofNat]
    have h1 := repr_length_ge_one n
    have h01 : ("0" : String).length = 1 := rfl
    omega
  · rw [if_neg h10, toString_int_ofNat]
    have hn : 10 ≤ n := by
      rcases not_and_or.mp h10 with h1 | h2
      · exact absurd h h1
      · have : (10:Int) ≤ (n : Int) := not_lt.mp h2
        exact_mod_cast this
    exact repr_length_ge_two n hn

/-! ### C10 -/

/-- C10: for every non-negative input, `format_time seconds` is the
string `HH:MM:SS` with `HH = floor(seconds / 3600)`, `MM =
floor((floor seconds mod 3600) / 60)` and `SS = floor seconds mod 60`,
each rendered by the width-2 zero-padding `pad2` and hence at least two
characters wide; `MM` and `SS` lie in `[0, 60)`, and fractional seconds
are truncated (only `⌊seconds⌋` enters the result). -/
theorem format_time_C10 (q : ℚ) (h : 0 ≤ q) :
    format_time q =
      pad2 ⌊q / 3600⌋ ++ ":" ++ pad2 (⌊q⌋ % 3600 / 60) ++ ":" ++ pad2 (⌊q⌋ % 60) ∧
    ⌊q / 3600⌋ = ⌊q⌋ / 3600 ∧
    0 ≤ ⌊q⌋ % 3600 / 60 ∧ ⌊q⌋ % 3600 / 60 < 60 ∧
    0 ≤ ⌊q⌋ % 60 ∧ ⌊q⌋ % 60 < 60 ∧
    2 ≤ (pad2 ⌊q / 3600⌋).length ∧ 2 ≤ (pad2 (⌊q⌋ % 3600 / 60)).length ∧
    2 ≤ (pad2 (⌊q⌋ % 60)).length := by
  have hfd := floor_div_3600 q
  have hf0 : 0 ≤ ⌊q⌋ := Int.floor_nonneg.mpr h
  have hmod : ⌊q⌋ % 3600 % 60 = ⌊q⌋ % 60 := by omega
  refine ⟨?_, hfd, by omega, by omega, by omega, by omega, ?_, ?_, ?_⟩
  · rw [format_time, pyInt_of_nonneg q h, hmod, hfd]
  · exact pad2_length _ (by omega)
  · exact pad2_length _ (by omega)
  · exact pad2_length _ (by omega)

/-- Witness for C10 at `seconds = 37.5`. -/
theorem format_time_C10_witness :
    (0:ℚ) ≤ mkRat 75 2 ∧
    (format_time (mkRat 75 2) =
      pad2 ⌊(mkRat 75 2) / 3600⌋ ++ ":" ++ pad2 (⌊(mkRat 75 2)⌋ % 3600 / 60) ++ ":" ++
        pad2 (⌊(mkRat 75 2)⌋ % 60) ∧
    ⌊(mkRat 75 2) / 3600⌋ = ⌊(mkRat 75 2)⌋ / 3600 ∧
    0 ≤ ⌊(mkRat 75 2)⌋ % 3600 / 60 ∧ ⌊(mkRat 75 2)⌋ % 3600 / 60 < 60 ∧
    0 ≤ ⌊(mkRat 75 2)⌋ % 60 ∧ ⌊(mkRat 75 2)⌋ % 60 < 60 ∧
    2 ≤ (pad2 ⌊(mkRat 75 2) / 3600⌋).length ∧
    2 ≤ (pad2 (⌊(mkRat 75 2)⌋ % 3600 / 60)).length ∧
    2 ≤ (pad2 (⌊(mkRat 75 2)⌋ % 60)).length) :=
  ⟨by decide, format_time_C10 (mkRat 75 2) (by decide)⟩

/-! ### C6 -/

/-- C6: with the clock held fixed, `update_total_time` is idempotent and
mutation-free on the interval data: a second run in the state it
produced returns that state unchanged, and the sessions, breaks, active
indices and break/activity state are never modified — the total is
derived from the stored intervals only. -/
theorem update_total_time_C6 (td : TimeData) (pg : Option WTT_TimeData) (now : Int) :
    update_total_time (update_total_time td pg now).1 (update_total_time td pg now).2 now =
      update_total_time td pg now ∧
    (update_total_time td pg now).2.map (fun p => p.sessions) = pg.map (fun p => p.sessions) ∧
    (update_total_time td pg now).2.map (fun p => p.break_sessions) =
      pg.map (fun p => p.break_sessions) ∧
    (update_total_time td pg now).2.map (fun p => p.active_session_index) =
      pg.map (fun p => p.active_session_index) ∧
    (update_total_time td pg now).2.map (fun p => p.active_break_index) =
      pg.map (fun p => p.active_break_index) ∧
    (update_total_time td pg now).2.map (fun p => p.is_on_break) =
      pg.map (fun p => p.is_on_break) ∧
    (update_total_time td pg now).2.map (fun p => p.last_activity_time) =
      pg.map (fun p => p.last_activity_time) := by
  cases pg with
  | none => simp [update_total_time]
  | some p =>
      have hupd : upd_total { p with total_time := upd_total p now } now = upd_total p now := rfl
      simp [update_total_time, update_total_timeP, hupd]

/-! ### C7 -/

/-- C7: `save_data` stamps `last_save_time` with the current time and
writes only the metadata fields of the PropertyGroup (version,
total_time — recomputed from the unchanged intervals —, last_save_time,
file_creation_time, file_id); the sessions, breaks, active indices,
break flag and activity time are unchanged on every call. -/
theorem save_data_C7 (td : TimeData) (p : WTT_TimeData) (now : Int) :
    (save_data td (some p) now).1.last_save_time = now ∧
    ∃ p', (save_data td (some p) now).2 = some p' ∧
      p'.sessions = p.sessions ∧
      p'.break_sessions = p.break_sessions ∧
      p'.active_session_index = p.active_session_index ∧
      p'.active_break_index = p.active_break_index ∧
      p'.is_on_break = p.is_on_break ∧
      p'.last_activity_time = p.last_activity_time ∧
      p'.version = DATA_VERSION ∧
      p'.total_time = upd_total p now ∧
      p'.last_save_time = now ∧
      p'.file_creation_time = td.file_creation_time ∧
      p'.file_id = td.file_id.getD "" :=
  ⟨rfl, _, rfl, rfl, rfl, rfl, rfl, rfl, rfl, rfl, rfl, rfl, rfl, rfl⟩

/-! ### C5 -/

/-- C5 counterexample: at the concrete state `pgW` (session 2 open and
active), running the save handler at time 1000 leaves the open-session
flags `[false, true]`: the active session is still open afterwards, so
saving does NOT close it, contrary to the claim. -/
theorem save_handler_C5_counterexample :
    ((save_handler (TimeData.init 50) (some pgW) (some "f.blend") 1000).2.map
      (fun p => p.sessions.map (fun s => decide (s.«end» ≤ 0)))) = some [false, true] := by
  decide

/-- C5 amended: the save handler does not end the current session; it
only updates the file id and persists metadata, leaving every session,
break and pointer of the interval data unchanged (sessions are closed
by new-file loads or manual resets instead). -/
theorem save_handler_C5_amended (td : TimeData) (p : WTT_TimeData) (fb : Option String)
    (now : Int) :
    ∃ p', (save_handler td (some p) fb now).2 = some p' ∧
      p'.sessions = p.sessions ∧
      p'.break_sessions = p.break_sessions ∧
      p'.active_session_index = p.active_session_index ∧
      p'.is_on_break = p.is_on_break ∧
      p'.active_break_index = p.active_break_index ∧
      p'.last_activity_time = p.last_activity_time := by
  cases fb with
  | none => exact ⟨_, rfl, rfl, rfl, rfl, rfl, rfl, rfl⟩
  | some b => exact ⟨_, rfl, rfl, rfl, rfl, rfl, rfl, rfl⟩

/-! ### Characterization of the end_active_sessions loop -/

theorem map_close_break_all_nil (now : Int) (bs : List WTT_BreakSession) :
    bs.map (close_break_all now []) = bs := by
  have h : ∀ b ∈ bs, close_break_all now [] b = b := by
    intro b _
    simp [close_break_all]
  rw [List.map_congr_left h]
  simp

theorem close_break_all_cons_open (now : Int) (s : WTT_TimeSession)
    (l : List WTT_TimeSession) (b : WTT_BreakSession) (hs : s.«end» ≤ 0) :
    close_break_all now l (close_break_for now s b) = close_break_all now (s :: l) b := by
  unfold close_break_all close_break_for
  by_cases h1 : b.session_id = s.id ∧ 0 < b.start ∧ b.«end» ≤ 0
  · rw [if_pos h1]
    have hR : 0 < b.start ∧ b.«end» ≤ 0 ∧
        ((s :: l).any fun t => decide (t.«end» ≤ 0 ∧ t.id = b.session_id)) = true := by
      refine ⟨h1.2.1, h1.2.2, ?_⟩
      simp only [List.any_cons, Bool.or_eq_true, decide_eq_true_eq]
      exact Or.inl ⟨hs, h1.1.symm⟩
    rw [if_pos hR]
    split
    · rfl
    · rfl
  · rw [if_neg h1]
    refine if_congr ?_ rfl rfl
    simp only [List.any_cons, Bool.or_eq_true, decide_eq_true_eq]
    constructor
    · rintro ⟨hb1, hb2, hany⟩
      exact ⟨hb1, hb2, Or.inr hany⟩
    · rintro ⟨hb1, hb2, hmatch | hany⟩
      · exact absurd ⟨hmatch.2.symm, hb1, hb2⟩ h1
      · exact ⟨hb1, hb2, hany⟩

theorem close_break_all_cons_closed (now : Int) (s : WTT_TimeSession)
    (l : List WTT_TimeSession) (b : WTT_BreakSession) (hs : ¬ s.«end» ≤ 0) :
    close_break_all now l b = close_break_all now (s :: l) b := by
  unfold close_break_all
  refine if_congr ?_ rfl rfl
  simp only [List.any_cons, Bool.or_eq_true, decide_eq_true_eq]
  constructor
  · rintro ⟨hb1, hb2, hany⟩
    exact ⟨hb1, hb2, Or.inr hany⟩
  · rintro ⟨hb1, hb2, hmatch | hany⟩
    · exact absurd hmatch.1 hs
    · exact ⟨hb1, hb2, hany⟩

theorem end_loop_spec (now : Int) (l : List WTT_TimeSession) :
    ∀ (done : List WTT_TimeSession) (bs : List WTT_BreakSession) (c : Nat),
    l.foldl (end_one_session now) (done, bs, c) =
      (done ++ l.map (close_session now),
       bs.map (close_break_all now l),
       c + l.countP openB) := by
  induction l with
  | nil =>
      intro done bs c
      simp [map_close_break_all_nil]
  | cons s l ih =>
      intro done bs c
      rw [List.foldl_cons]
      by_cases hs : s.«end» ≤ 0
      · have hstep : end_one_session now (done, bs, c) s =
            (done ++ [{ s with «end» := now }], bs.map (close_break_for now s), c + 1) := by
          simp [end_one_session, hs]
        rw [hstep, ih]
        simp only [Prod.mk.injEq]
        refine ⟨?_, ?_, ?_⟩
        · simp [close_session, hs, List.append_assoc]
        · rw [List.map_map]
          exact List.map_congr_left (fun b _ => close_break_all_cons_open now s l b hs)
        · simp only [List.countP_cons, openB]
          rw [if_pos (by simp [hs])]
          omega
      · have hstep : end_one_session now (done, bs, c) s = (done ++ [s], bs, c) := by
          simp [end_one_session, hs]
        rw [hstep, ih]
        simp only [Prod.mk.injEq]
        refine ⟨?_, ?_, ?_⟩
        · simp [close_session, hs, List.append_assoc]
        · exact List.map_congr_left (fun b _ => close_break_all_cons_closed now s l b hs)
        · simp only [List.countP_cons, openB]
          rw [if_neg (by simp [hs])]
          omega

/-- `end_active_sessions` with at least one open session: sessions and
breaks are closed as described, the pointers are reset and the total is
recomputed. -/
theorem end_active_sessionsP_eq_pos (td : TimeData) (p : WTT_TimeData) (now : Int)
    (h : openCount p.sessions ≠ 0) :
    end_active_sessionsP td p now =
      (let p1 : WTT_TimeData := { p with
          sessions := p.sessions.map (close_session now)
          break_sessions := p.break_sessions.map (close_break_all now p.sessions)
          active_session_index := -1
          is_on_break := false
          active_break_index := -1 }
       (({ td with total_time := upd_total p1 now },
         { p1 with total_time := upd_total p1 now }),
        openCount p.sessions)) := by
  rw [end_active_sessionsP, end_loop_spec]
  simp only [List.nil_append, Nat.zero_add]
  rw [if_pos (by simpa [openCount] using h)]
  rfl

/-- `end_active_sessions` with no open session: nothing changes and the
returned count is 0. -/
theorem end_active_sessionsP_eq_zero (td : TimeData) (p : WTT_TimeData) (now : Int)
    (h : openCount p.sessions = 0) :
    end_active_sessionsP td p now = ((td, p), 0) := by
  have hall : ∀ s ∈ p.sessions, ¬ openB s = true := by
    rw [← List.countP_eq_zero]
    exact h
  have hsess : p.sessions.map (close_session now) = p.sessions := by
    have : ∀ s ∈ p.sessions, close_session now s = s := by
      intro s hsmem
      have := hall s hsmem
      simp only [openB, decide_eq_true_eq] at this
      simp [close_session, this]
    rw [List.map_congr_left this]
    simp
  have hbr : p.break_sessions.map (close_break_all now p.sessions) = p.break_sessions := by
    have : ∀ b ∈ p.break_sessions, close_break_all now p.sessions b = b := by
      intro b _
      rw [close_break_all, if_neg]
      rintro ⟨hb1, hb2, hany⟩
      simp only [List.any_eq_true, decide_eq_true_eq] at hany
      obtain ⟨s, hsmem, hsopen, _⟩ := hany
      have := hall s hsmem
      simp only [openB, decide_eq_true_eq] at this
      exact this hsopen
    rw [List.map_congr_left this]
    simp
  rw [end_active_sessionsP, end_loop_spec]
  simp only [List.nil_append, Nat.zero_add, hsess, hbr]
  rw [if_neg (by simpa [openCount] using h)]
  have hc : p.sessions.countP openB = 0 := by simpa [openCount] using h
  rw [hc]

theorem close_break_all_session_id (now : Int) (l : List WTT_TimeSession)
    (b : WTT_BreakSession) : (close_break_all now l b).session_id = b.session_id := by
  rw [close_break_all]
  split
  · rfl
  · rfl

theorem close_break_all_start (now : Int) (l : List WTT_TimeSession)
    (b : WTT_BreakSession) : (close_break_all now l b).start = b.start := by
  rw [close_break_all]
  split
  · rfl
  · rfl

theorem close_break_all_eq_spec (now : Int) (l : List WTT_TimeSession)
    (b : WTT_BreakSession) :
    close_break_all now l b =
      if 0 < b.start ∧ b.«end» ≤ 0 ∧ ∃ s ∈ l, s.«end» ≤ 0 ∧ s.id = b.session_id
      then { b with «end» := now } else b := by
  rw [close_break_all]
  refine if_congr ?_ rfl rfl
  simp [List.any_eq_true]

/-! ### C3 -/

/-- C3: a session is open exactly when `end <= 0`;
`end_active_sessions` sets `end := now` on every open session and on
every open break (`start > 0`, `end <= 0`) of such a session, resets
`active_session_index`, `is_on_break` and `active_break_index` and
recomputes the total when at least one session was ended, returns the
number of ended sessions, and afterwards no session — and no break of
an ended session — remains open. -/
theorem end_active_sessions_C3 (td : TimeData) (p : WTT_TimeData) (now : Int)
    (hnow : 0 < now) :
    (end_active_sessionsP td p now).2 = openCount p.sessions ∧
    (end_active_sessionsP td p now).1.2.sessions =
      p.sessions.map (fun s => if s.«end» ≤ 0 then { s with «end» := now } else s) ∧
    (end_active_sessionsP td p now).1.2.break_sessions =
      p.break_sessions.map (fun b =>
        if 0 < b.start ∧ b.«end» ≤ 0 ∧ ∃ s ∈ p.sessions, s.«end» ≤ 0 ∧ s.id = b.session_id
        then { b with «end» := now } else b) ∧
    (0 < openCount p.sessions →
      (end_active_sessionsP td p now).1.2.active_session_index = -1 ∧
      (end_active_sessionsP td p now).1.2.is_on_break = false ∧
      (end_active_sessionsP td p now).1.2.active_break_index = -1 ∧
      (end_active_sessionsP td p now).1.1.total_time =
        upd_total (end_active_sessionsP td p now).1.2 now) ∧
    (∀ s ∈ (end_active_sessionsP td p now).1.2.sessions, ¬ s.«end» ≤ 0) ∧
    (∀ b ∈ (end_active_sessionsP td p now).1.2.break_sessions,
      (∃ s ∈ p.sessions, s.«end» ≤ 0 ∧ s.id = b.session_id) →
      ¬ (0 < b.start ∧ b.«end» ≤ 0)) := by
  have hbr_spec : p.break_sessions.map (close_break_all now p.sessions) =
      p.break_sessions.map (fun b =>
        if 0 < b.start ∧ b.«end» ≤ 0 ∧ ∃ s ∈ p.sessions, s.«end» ≤ 0 ∧ s.id = b.session_id
        then { b with «end» := now } else b) :=
    List.map_congr_left (fun b _ => close_break_all_eq_spec now p.sessions b)
  by_cases hc : openCount p.sessions = 0
  · rw [end_active_sessionsP_eq_zero td p now hc]
    have hall : ∀ s ∈ p.sessions, ¬ s.«end» ≤ 0 := by
      intro s hs
      have := (List.countP_eq_zero.mp hc) s hs
      simp only [openB, decide_eq_true_eq] at this
      exact this
    refine ⟨hc.symm, ?_, ?_, ?_, hall, ?_⟩
    · have : ∀ s ∈ p.sessions,
          (if s.«end» ≤ 0 then ({ s with «end» := now } : WTT_TimeSession) else s) = s := by
        intro s hs
        rw [if_neg (hall s hs)]
      rw [List.map_congr_left this]
      simp
    · have : ∀ b ∈ p.break_sessions,
          (if 0 < b.start ∧ b.«end» ≤ 0 ∧ ∃ s ∈ p.sessions, s.«end» ≤ 0 ∧ s.id = b.session_id
           then ({ b with «end» := now } : WTT_BreakSession) else b) = b := by
        intro b _
        rw [if_neg]
        rintro ⟨_, _, s, hsmem, hsopen, _⟩
        exact hall s hsmem hsopen
      rw [List.map_congr_left this]
      simp
    · intro hpos
      omega
    · rintro b _ ⟨s, hsmem, hsopen, _⟩
      exact absurd hsopen (hall s hsmem)
  · rw [end_active_sessionsP_eq_pos td p now hc]
    refine ⟨rfl, rfl, hbr_spec, fun _ => ⟨rfl, rfl, rfl, rfl⟩, ?_, ?_⟩
    · intro s hs
      obtain ⟨s0, _, rfl⟩ := List.mem_map.mp hs
      rw [close_session]
      split
      · show ¬ now ≤ 0
        omega
      · rename_i hopen
        exact hopen
    · intro b hb hex
      obtain ⟨b0, hb0mem, rfl⟩ := List.mem_map.mp hb
      rw [close_break_all_session_id] at hex
      rintro ⟨hb1, hb2⟩
      rw [close_break_all_start] at hb1
      by_cases hcond : 0 < b0.start ∧ b0.«end» ≤ 0 ∧
          ∃ s ∈ p.sessions, s.«end» ≤ 0 ∧ s.id = b0.session_id
      · rw [close_break_all_eq_spec, if_pos hcond] at hb2
        have hle : now ≤ 0 := hb2
        omega
      · rw [close_break_all_eq_spec, if_neg hcond] at hb2
        exact hcond ⟨hb1, hb2, hex⟩

/-- Witness for C3: in the shared state `pgW` exactly one session is
open, and `end_active_sessions` at time 1000 reports ending exactly
that one. -/
theorem end_active_sessions_C3_witness :
    (end_active_sessionsP (TimeData.init 50) pgW 1000).2 = 1 :=
  ((end_active_sessions_C3 (TimeData.init 50) pgW 1000 (by decide)).1).trans (by decide)

/-! ### start_session and switch_session -/

theorem map_close_session_of_none_open (now : Int) (l : List WTT_TimeSession)
    (h : l.countP openB = 0) : l.map (close_session now) = l := by
  have hall : ∀ s ∈ l, close_session now s = s := by
    intro s hs
    have := (List.countP_eq_zero.mp h) s hs
    simp only [openB, decide_eq_true_eq] at this
    simp [close_session, this]
  rw [List.map_congr_left hall]
  simp

theorem map_close_break_all_of_none_open (now : Int) (l : List WTT_TimeSession)
    (bs : List WTT_BreakSession) (h : l.countP openB = 0) :
    bs.map (close_break_all now l) = bs := by
  have hall : ∀ b ∈ bs, close_break_all now l b = b := by
    intro b _
    rw [close_break_all, if_neg]
    rintro ⟨_, _, hany⟩
    simp only [List.any_eq_true, decide_eq_true_eq] at hany
    obtain ⟨s, hsmem, hsopen, _⟩ := hany
    have := (List.countP_eq_zero.mp h) s hsmem
    simp only [openB, decide_eq_true_eq] at this
    exact this hsopen
  rw [List.map_congr_left hall]
  simp

theorem countP_open_map_close (now : Int) (l : List WTT_TimeSession) (hnow : 0 < now) :
    (l.map (close_session now)).countP openB = 0 := by
  rw [List.countP_eq_zero]
  intro s hs
  obtain ⟨s0, _, rfl⟩ := List.mem_map.mp hs
  rw [close_session]
  split
  · simp only [openB, decide_eq_true_eq]
    show ¬ now ≤ 0
    omega
  · rename_i hcl
    simp only [openB, decide_eq_true_eq]
    exact hcl

theorem end_active_sessionsP_sessions (td : TimeData) (p : WTT_TimeData) (now : Int) :
    (end_active_sessionsP td p now).1.2.sessions = p.sessions.map (close_session now) := by
  by_cases hc : openCount p.sessions = 0
  · rw [end_active_sessionsP_eq_zero td p now hc,
        map_close_session_of_none_open now _ (by simpa [openCount] using hc)]
  · rw [end_active_sessionsP_eq_pos td p now hc]

/-- `start_session` in closed form. -/
theorem start_sessionP_eq (td : TimeData) (p : WTT_TimeData) (now : Int) :
    start_sessionP td p now =
      (({ td with total_time := upd_total (start_pg p now) now },
        { start_pg p now with total_time := upd_total (start_pg p now) now }),
       (p.sessions.length : Int) + 1) := by
  simp only [start_sessionP]
  by_cases hc : openCount p.sessions = 0
  · rw [end_active_sessionsP_eq_zero td p now hc]
    have h1 : p.sessions.map (close_session now) = p.sessions :=
      map_close_session_of_none_open now _ (by simpa [openCount] using hc)
    have h2 : p.break_sessions.map (close_break_all now p.sessions) = p.break_sessions :=
      map_close_break_all_of_none_open now _ _ (by simpa [openCount] using hc)
    simp only [start_pg, new_session_item, h1, h2]
    rfl
  · rw [end_active_sessionsP_eq_pos td p now hc]
    simp only [start_pg, new_session_item, List.length_map]
    rfl

/-! ### C4 -/

/-- C4: `switch_session` ends every open session and starts exactly one
new one: it returns `True`, and afterwards exactly one session is open —
the appended one, with `start = now`, `end = 0`, empty comment, id equal
to the new collection length — `active_session_index` points at it, and
the break state is cleared. -/
theorem switch_session_C4 (td : TimeData) (p : WTT_TimeData) (now : Int) (hnow : 0 < now) :
    (switch_session td (some p) now).2 = true ∧
    ∃ p', (switch_session td (some p) now).1.2 = some p' ∧
      openCount p'.sessions = 1 ∧
      p'.sessions.length = p.sessions.length + 1 ∧
      p'.active_session_index = (p'.sessions.length : Int) - 1 ∧
      (∃ s, p'.sessions.getLast? = some s ∧
        p'.sessions[p'.active_session_index.toNat]? = some s ∧
        s.start = now ∧ s.«end» = 0 ∧ s.comment = "" ∧ s.id = (p'.sessions.length : Int)) ∧
      p'.is_on_break = false ∧ p'.active_break_index = -1 := by
  have hswitch : switch_session td (some p) now =
      ((let r1 := end_active_sessionsP td p now
        let r2 := start_sessionP r1.1.1 r1.1.2 now
        let r3 := save_dataP r2.1.1 r2.1.2 now
        ((r3.1, some r3.2), true))) := rfl
  rw [hswitch]
  simp only
  rw [start_sessionP_eq]
  refine ⟨by trivial, _, rfl, ?_, ?_, ?_, ?_, by trivial, by trivial⟩
  · -- one open session: the appended one
    show openCount ((start_pg (end_active_sessionsP td p now).1.2 now).sessions) = 1
    rw [start_pg]
    simp only [openCount, List.countP_append]
    rw [countP_open_map_close now _ hnow]
    rfl
  · -- length grows by one
    show ((start_pg (end_active_sessionsP td p now).1.2 now).sessions).length =
      p.sessions.length + 1
    rw [start_pg]
    simp [end_active_sessionsP_sessions]
  · -- the active index is the last position
    show ((end_active_sessionsP td p now).1.2.sessions.length : Int) =
      (((start_pg (end_active_sessionsP td p now).1.2 now).sessions).length : Int) - 1
    rw [start_pg]
    simp only [List.length_append, List.length_map, List.length_cons, List.length_nil]
    push_cast
    ring
  · -- the last element is the fresh session and the index points at it
    refine ⟨new_session_item (end_active_sessionsP td p now).1.2 now, ?_, ?_, rfl, rfl, rfl, ?_⟩
    · show ((end_active_sessionsP td p now).1.2.sessions.map (close_session now) ++
        [new_session_item (end_active_sessionsP td p now).1.2 now]).getLast? = _
      exact List.getLast?_concat _
    · show ((end_active_sessionsP td p now).1.2.sessions.map (close_session now) ++
        [new_session_item (end_active_sessionsP td p now).1.2 now])[
          ((end_active_sessionsP td p now).1.2.sessions.length : Int).toNat]? = _
      rw [Int.toNat_natCast]
      have hlen : (end_active_sessionsP td p now).1.2.sessions.length =
          ((end_active_sessionsP td p now).1.2.sessions.map (close_session now)).length := by
        simp
      rw [hlen]
      simp
    · show ((end_active_sessionsP td p now).1.2.sessions.length : Int) + 1 =
        (((start_pg (end_active_sessionsP td p now).1.2 now).sessions).length : Int)
      rw [start_pg]
      simp only [List.length_append, List.length_map, List.length_cons, List.length_nil]
      push_cast
      ring

/-- Witness for C4 at the shared state `pgW` and time 1000. -/
theorem switch_session_C4_witness :
    (switch_session (TimeData.init 50) (some pgW) 1000).2 = true :=
  (switch_session_C4 (TimeData.init 50) pgW 1000 (by decide)).1

/-! ### C1 -/

theorem spec_break_sum_nonneg (p : WTT_TimeData) (s : WTT_TimeSession) (end_cap : Int) :
    0 ≤ spec_break_sum p s end_cap := by
  refine List.sum_nonneg ?_
  intro x hx
  obtain ⟨b, _, rfl⟩ := List.mem_map.mp hx
  split
  · exact le_max_left 0 _
  · exact le_refl 0

theorem sum_breaks_eq_spec (p : WTT_TimeData) (s : WTT_TimeSession) (end_cap : Int)
    (hfind : p.sessions.find? (fun t => t.id == s.id) = some s) :
    sum_breaks_for_session p s.id end_cap = spec_break_sum p s end_cap := by
  rw [sum_breaks_for_session, hfind]
  have hmap : (p.break_sessions.map (fun b =>
      if b.session_id ≠ s.id ∨ b.start ≤ 0 then 0
      else
        let bstart := max s.start b.start
        let bend := if b.«end» > 0 then b.«end» else end_cap
        let bend := min bend end_cap
        max 0 (bend - bstart))) =
      (p.break_sessions.map (fun b =>
        if b.session_id = s.id ∧ 0 < b.start then
          max 0 (min (if 0 < b.«end» then b.«end» else end_cap) end_cap - max s.start b.start)
        else 0)) := by
    refine List.map_congr_left ?_
    intro b _
    by_cases hb : b.session_id = s.id ∧ 0 < b.start
    · have hneg : ¬(b.session_id ≠ s.id ∨ b.start ≤ 0) := by
        rintro (h1 | h2)
        · exact h1 hb.1
        · omega
      rw [if_neg hneg, if_pos hb]
    · have hpos : b.session_id ≠ s.id ∨ b.start ≤ 0 := by
        by_cases h1 : b.session_id = s.id
        · right
          rcases not_and_or.mp hb with h | h
          · exact absurd h1 h
          · omega
        · left
          exact h1
      rw [if_pos hpos, if_neg hb]
  simp only
  rw [hmap]
  have h0 : 0 ≤ spec_break_sum p s end_cap := spec_break_sum_nonneg p s end_cap
  rw [spec_break_sum] at h0 ⊢
  omega

theorem session_work_nonneg (p : WTT_TimeData) (now : Int) (s : WTT_TimeSession) :
    0 ≤ session_work p now s := by
  rw [session_work]
  split
  · exact le_refl 0
  · exact le_max_left 0 _

theorem session_work_eq_spec (p : WTT_TimeData) (now : Int) (s : WTT_TimeSession)
    (hfind : p.sessions.find? (fun t => t.id == s.id) = some s) :
    session_work p now s =
      (if 0 < s.start then
        max 0 ((if 0 < s.«end» then s.«end» else now) - s.start -
          spec_break_sum p s (if 0 < s.«end» then s.«end» else now))
       else 0) := by
  have hcap : (if s.«end» ≤ 0 then now else s.«end») =
      (if 0 < s.«end» then s.«end» else now) := by
    by_cases h : s.«end» ≤ 0
    · rw [if_pos h, if_neg (by omega)]
    · rw [if_neg h, if_pos (by omega)]
  rw [session_work, hcap]
  by_cases hst : s.start ≤ 0
  · rw [if_pos hst, if_neg (show ¬ 0 < s.start by omega)]
  · rw [if_neg hst, if_pos (show 0 < s.start by omega), sum_breaks_eq_spec p s _ hfind]
    have hB := spec_break_sum_nonneg p s (if 0 < s.«end» then s.«end» else now)
    generalize (if 0 < s.«end» then s.«end» else now) = cap at hB ⊢
    generalize spec_break_sum p s cap = B at hB ⊢
    simp only [max_def]
    split_ifs <;> omega

/-- C1: after `update_total_time`, the aggregate total (on the Python
object and in the PropertyGroup) equals the claim formula
`spec_total_time`: the sum, over sessions with positive start, of
`max(0, end_cap - start - B)` with `end_cap` the end when positive else
the current time and `B` the clamped break overlap; every session
contributes a non-negative amount and the total is non-negative.
The hypothesis states that session ids identify their session (as the
id-based break lookup of the code requires). -/
theorem update_total_time_C1 (td : TimeData) (p : WTT_TimeData) (now : Int)
    (hids : ∀ s ∈ p.sessions, p.sessions.find? (fun t => t.id == s.id) = some s) :
    (update_total_timeP td p now).1.total_time = spec_total_time p now ∧
    (update_total_timeP td p now).2.total_time = spec_total_time p now ∧
    (∀ s ∈ p.sessions, 0 ≤ session_work p now s) ∧
    0 ≤ (update_total_timeP td p now).1.total_time := by
  have hmain : upd_total p now = spec_total_time p now := by
    rw [upd_total, spec_total_time]
    refine congrArg List.sum (List.map_congr_left ?_)
    intro s hs
    exact session_work_eq_spec p now s (hids s hs)
  have htot : 0 ≤ upd_total p now := by
    rw [upd_total]
    refine List.sum_nonneg ?_
    intro x hx
    obtain ⟨s, _, rfl⟩ := List.mem_map.mp hx
    exact session_work_nonneg p now s
  exact ⟨hmain, hmain, fun s _ => session_work_nonneg p now s, htot⟩

/-- Witness for C1: in the shared state `pgW` at time 1000 the total is
300 + 400 = 700 seconds. -/
theorem update_total_time_C1_witness :
    (update_total_timeP (TimeData.init 50) pgW 1000).1.total_time = 700 :=
  ((update_total_time_C1 (TimeData.init 50) pgW 1000 (by decide)).1).trans (by decide)

/-! ### C9 -/

theorem map_break_copy_id (bs : List WTT_BreakSession) :
    bs.map (fun b : WTT_BreakSession =>
      ({ id := b.id, session_id := b.session_id, start := b.start, «end» := b.«end»,
         reason := b.reason, comment := b.comment } : WTT_BreakSession)) = bs := by
  have h : ∀ b ∈ bs,
      ({ id := b.id, session_id := b.session_id, start := b.start, «end» := b.«end»,
         reason := b.reason, comment := b.comment } : WTT_BreakSession) = b :=
    fun b _ => rfl
  rw [List.map_congr_left h]
  simp

/-- `reset_current_session` in closed form on the valid branch. -/
theorem reset_current_sessionP_eq_pos (td : TimeData) (p : WTT_TimeData) (now : Int)
    (h1 : 0 ≤ p.active_session_index)
    (h2 : p.active_session_index < (p.sessions.length : Int)) :
    reset_current_sessionP td p now =
      (let s0 := p.sessions.get ⟨p.active_session_index.toNat, by omega⟩
       let p3 : WTT_TimeData := { p with
         sessions := p.sessions.set p.active_session_index.toNat { s0 with start := now, «end» := 0 }
         break_sessions := p.break_sessions.filter (fun b => decide (b.session_id ≠ s0.id))
         is_on_break := false
         active_break_index := -1 }
       let t := upd_total p3 now
       ((({ td with total_time := t, last_save_time := now },
          sync_to_pgP { td with total_time := t, last_save_time := now }
            { p3 with total_time := t }), true))) := by
  rw [reset_current_sessionP, dif_pos ⟨h1, h2⟩]
  simp only [map_break_copy_id]
  rfl

/-- C9: `reset_current_session` returns `False` with no state change
when the PropertyGroup is missing or `active_session_index` is out of
range; otherwise it returns `True`, restarts the indexed session
(`start := now`, `end := 0`), keeps exactly the breaks of OTHER
sessions with all their fields and relative order, and clears
`is_on_break` and `active_break_index`. -/
theorem reset_current_session_C9 (td : TimeData) (p : WTT_TimeData) (now : Int) :
    reset_current_session td none now = ((td, none), false) ∧
    ((p.active_session_index < 0 ∨ (p.sessions.length : Int) ≤ p.active_session_index) →
      reset_current_session td (some p) now = ((td, some p), false)) ∧
    (∀ (h1 : 0 ≤ p.active_session_index)
       (h2 : p.active_session_index < (p.sessions.length : Int)),
      (reset_current_sessionP td p now).2 = true ∧
      ∃ s0, p.sessions[p.active_session_index.toNat]? = some s0 ∧
        (reset_current_sessionP td p now).1.2.sessions =
          p.sessions.set p.active_session_index.toNat { s0 with start := now, «end» := 0 } ∧
        (reset_current_sessionP td p now).1.2.break_sessions =
          p.break_sessions.filter (fun b => decide (b.session_id ≠ s0.id)) ∧
        (reset_current_sessionP td p now).1.2.is_on_break = false ∧
        (reset_current_sessionP td p now).1.2.active_break_index = -1) := by
  refine ⟨rfl, ?_, ?_⟩
  · intro h
    simp only [reset_current_session]
    rw [reset_current_sessionP, dif_neg]
    omega
  · intro h1 h2
    have hbound : p.active_session_index.toNat < p.sessions.length := by omega
    rw [reset_current_sessionP_eq_pos td p now h1 h2]
    refine ⟨rfl, p.sessions.get ⟨p.active_session_index.toNat, hbound⟩, ?_, rfl, rfl, rfl, rfl⟩
    simp [List.getElem?_eq_getElem hbound]

/-- Witness for C9 at the shared state `pgW` (active index 1 valid):
the call succeeds, session 2 is restarted at 2000 and the break of
session 1 is kept. -/
theorem reset_current_session_C9_witness :
    (reset_current_sessionP (TimeData.init 50) pgW 2000).2 = true :=
  ((reset_current_session_C9 (TimeData.init 50) pgW 2000).2.2 (by decide) (by decide)).1

/-! ### C2 -/

example : (idle_break_step pgC2 400 none).break_sessions.length = 1 := by decide
example : (idle_break_step pgC2 400 none).is_on_break = true := by decide
example : (idle_break_step pgC2 399 none).break_sessions.length = 0 := by decide
example : (idle_break_step pgC2 401 (some 500)).break_sessions.length = 0 := by decide
example : (idle_break_step pgC2 120 (some 10)).break_sessions.length = 0 := by decide
example : (idle_break_step pgC2 140 (some 10)).break_sessions.length = 1 := by decide

/-- C2 counterexample: at `pgC2` with `now = 400` the idle time is
exactly the threshold (300): the callback DOES open a break although
the idle time does not strictly exceed the threshold, so
"created iff idle exceeds the threshold" is false as stated. -/
theorem update_time_callback_C2_counterexample :
    ¬ (((idle_break_step pgC2 400 none).break_sessions.length =
          pgC2.break_sessions.length + 1) ↔
       (pgC2.is_on_break = false ∧ threshold_of none < idle_of pgC2 400)) := by
  decide

theorem idle_break_core_create (p : WTT_TimeData) (now : Int) (pref : Option Int)
    (h1 : p.is_on_break = false) (h2 : threshold_of pref ≤ now - p.last_activity_time) :
    idle_break_core p now pref =
      { p with
        break_sessions := p.break_sessions ++
          [{ id := (p.break_sessions.length : Int) + 1
             session_id := ((get_current_session (some p)).map (fun c => c.id)).getD 0
             start := match get_current_session (some p) with
                      | some c => max c.start (if 0 < p.last_activity_time
                                               then p.last_activity_time
                                               else now - (now - p.last_activity_time))
                      | none => (if 0 < p.last_activity_time then p.last_activity_time
                                 else now - (now - p.last_activity_time))
             «end» := 0, reason := "inactivity", comment := "" }]
        active_break_index := (p.break_sessions.length : Int)
        is_on_break := true } := by
  rw [idle_break_core, if_pos]
  exact ⟨by simp [h1], h2⟩

theorem idle_break_core_close (p : WTT_TimeData) (now : Int) (pref : Option Int)
    (h1 : p.is_on_break = true) (h2 : now - p.last_activity_time < 1)
    (h3 : 0 ≤ p.active_break_index)
    (h4 : p.active_break_index.toNat < p.break_sessions.length) :
    idle_break_core p now pref =
      { p with
        break_sessions := p.break_sessions.set p.active_break_index.toNat
          { p.break_sessions.get ⟨p.active_break_index.toNat, h4⟩ with «end» := now }
        last_activity_time := now
        is_on_break := false
        active_break_index := -1 } := by
  rw [idle_break_core, if_neg (by simp [h1]), if_pos ⟨by simp [h1], h2⟩,
      dif_pos ⟨h3, by omega⟩]

theorem idle_break_core_noop (p : WTT_TimeData) (now : Int) (pref : Option Int)
    (h1 : ¬(p.is_on_break = false ∧ threshold_of pref ≤ now - p.last_activity_time))
    (h2 : ¬(p.is_on_break = true ∧ now - p.last_activity_time < 1)) :
    idle_break_core p now pref = p := by
  rw [idle_break_core, if_neg, if_neg]
  · intro hc
    exact h2 ⟨hc.1, hc.2⟩
  · rintro ⟨hn, hth⟩
    exact h1 ⟨by simpa using hn, hth⟩

/-- The creation case of the full idle/break block, phrased over the
pre-repair state. -/
theorem idle_break_step_create_eq (p : WTT_TimeData) (now : Int) (pref : Option Int)
    (h1 : p.is_on_break = false) (h2 : threshold_of pref ≤ idle_of p now) :
    idle_break_step p now pref =
      { p with
        last_activity_time := if p.last_activity_time ≤ 0 then now else p.last_activity_time
        break_sessions := p.break_sessions ++ [new_break_item p now]
        active_break_index := (p.break_sessions.length : Int)
        is_on_break := true } := by
  by_cases hla : p.last_activity_time ≤ 0
  · have h2' : threshold_of pref ≤ now - now := by simpa [idle_of, hla] using h2
    rw [idle_break_step, if_pos hla,
        idle_break_core_create { p with last_activity_time := now } now pref h1 h2']
    simp only [new_break_item, if_pos hla]
    rfl
  · have h2' : threshold_of pref ≤ now - p.last_activity_time := by
      simpa [idle_of, hla] using h2
    rw [idle_break_step, if_neg hla,
        idle_break_core_create p now pref h1 h2']
    simp only [new_break_item, if_neg hla]

/-- The closing case of the full idle/break block. -/
theorem idle_break_step_close_eq (p : WTT_TimeData) (now : Int) (pref : Option Int)
    (h1 : p.is_on_break = true) (h2 : idle_of p now < 1)
    (h3 : 0 ≤ p.active_break_index)
    (h4 : p.active_break_index.toNat < p.break_sessions.length) :
    idle_break_step p now pref =
      { p with
        break_sessions := p.break_sessions.set p.active_break_index.toNat
          { p.break_sessions.get ⟨p.active_break_index.toNat, h4⟩ with «end» := now }
        last_activity_time := now
        is_on_break := false
        active_break_index := -1 } := by
  by_cases hla : p.last_activity_time ≤ 0
  · have h2' : now - now < 1 := by simpa [idle_of, hla] using h2
    rw [idle_break_step, if_pos hla,
        idle_break_core_close { p with last_activity_time := now } now pref h1 h2' h3 h4]
  · have h2' : now - p.last_activity_time < 1 := by simpa [idle_of, hla] using h2
    rw [idle_break_step, if_neg hla, idle_break_core_close p now pref h1 h2' h3 h4]

/-- The do-nothing case of the full idle/break block (only the
activity-time repair may fire). -/
theorem idle_break_step_noop_eq (p : WTT_TimeData) (now : Int) (pref : Option Int)
    (h1 : ¬(p.is_on_break = false ∧ threshold_of pref ≤ idle_of p now))
    (h2 : ¬(p.is_on_break = true ∧ idle_of p now < 1)) :
    idle_break_step p now pref =
      if p.last_activity_time ≤ 0 then { p with last_activity_time := now } else p := by
  by_cases hla : p.last_activity_time ≤ 0
  · have hA : ¬(p.is_on_break = false ∧ threshold_of pref ≤ now - now) := by
      rintro ⟨ha, hb⟩
      exact h1 ⟨ha, by simpa [idle_of, hla] using hb⟩
    have hB : ¬(p.is_on_break = true ∧ now - now < 1) := by
      rintro ⟨ha, hb⟩
      exact h2 ⟨ha, by simpa [idle_of, hla] using hb⟩
    rw [idle_break_step, if_pos hla]
    exact idle_break_core_noop _ now pref hA hB
  · have hA : ¬(p.is_on_break = false ∧ threshold_of pref ≤ now - p.last_activity_time) := by
      rintro ⟨ha, hb⟩
      exact h1 ⟨ha, by simpa [idle_of, hla] using hb⟩
    have hB : ¬(p.is_on_break = true ∧ now - p.last_activity_time < 1) := by
      rintro ⟨ha, hb⟩
      exact h2 ⟨ha, by simpa [idle_of, hla] using hb⟩
    rw [idle_break_step, if_neg hla]
    exact idle_break_core_noop p now pref hA hB

/-- C2 amended: in the pg-block of the timer callback, a new break is
created iff no break is open and the idle time is AT LEAST the clamped
threshold (the code uses `>=`, not strict excess); the created break
has `end = 0`, reason "inactivity", start no earlier than the current
session's start, and `is_on_break` becomes true with the break index
pointing at it.  An open break is closed (its end set to `now`, the
flag cleared, the index reset) iff the idle time is under one second
while on break; otherwise no stored break is modified. -/
theorem update_time_callback_C2_amended (p : WTT_TimeData) (now : Int) (pref : Option Int)
    (hab : p.is_on_break = true →
      0 ≤ p.active_break_index ∧ p.active_break_index.toNat < p.break_sessions.length) :
    ((idle_break_step p now pref).break_sessions.length = p.break_sessions.length + 1 ↔
      (p.is_on_break = false ∧ threshold_of pref ≤ idle_of p now)) ∧
    ((p.is_on_break = false ∧ threshold_of pref ≤ idle_of p now) →
      ∃ bi, (idle_break_step p now pref).break_sessions = p.break_sessions ++ [bi] ∧
        bi.«end» = 0 ∧ bi.reason = "inactivity" ∧
        (∀ c, get_current_session (some p) = some c → c.start ≤ bi.start) ∧
        (idle_break_step p now pref).is_on_break = true ∧
        (idle_break_step p now pref).active_break_index =
          (p.break_sessions.length : Int)) ∧
    ((p.is_on_break = true ∧ idle_of p now < 1) →
      (idle_break_step p now pref).is_on_break = false ∧
      (idle_break_step p now pref).active_break_index = -1 ∧
      (idle_break_step p now pref).last_activity_time = now ∧
      ∃ bold, p.break_sessions[p.active_break_index.toNat]? = some bold ∧
        (idle_break_step p now pref).break_sessions =
          p.break_sessions.set p.active_break_index.toNat { bold with «end» := now }) ∧
    (¬(p.is_on_break = true ∧ idle_of p now < 1) →
      ∀ i, i < p.break_sessions.length →
        (idle_break_step p now pref).break_sessions[i]? = p.break_sessions[i]?) := by
  by_cases hcreate : p.is_on_break = false ∧ threshold_of pref ≤ idle_of p now
  · rw [idle_break_step_create_eq p now pref hcreate.1 hcreate.2]
    refine ⟨?_, ?_, ?_, ?_⟩
    · simp [hcreate]
    · intro _
      refine ⟨new_break_item p now, by trivial, by trivial, by trivial, ?_,
        by trivial, by trivial⟩
      intro c hc
      rw [new_break_item, hc]
      exact le_max_left _ _
    · rintro ⟨hbr, _⟩
      rw [hcreate.1] at hbr
      cases hbr
    · intro _ i hi
      exact List.getElem?_append_left hi
  · by_cases hclose : p.is_on_break = true ∧ idle_of p now < 1
    · obtain ⟨h3, h4⟩ := hab hclose.1
      rw [idle_break_step_close_eq p now pref hclose.1 hclose.2 h3 h4]
      refine ⟨?_, ?_, ?_, ?_⟩
      · constructor
        · intro hlen
          rw [List.length_set] at hlen
          omega
        · rintro ⟨hbr, _⟩
          rw [hclose.1] at hbr
          cases hbr
      · rintro ⟨hbr, _⟩
        rw [hclose.1] at hbr
        cases hbr
      · intro _
        exact ⟨by trivial, by trivial, by trivial,
          p.break_sessions.get ⟨p.active_break_index.toNat, h4⟩,
          List.getElem?_eq_getElem h4, by trivial⟩
      · intro hne
        exact absurd hclose hne
    · rw [idle_break_step_noop_eq p now pref hcreate hclose]
      have hbs2 : (if p.last_activity_time ≤ 0 then { p with last_activity_time := now }
          else p).break_sessions = p.break_sessions := by
        split
        · rfl
        · rfl
      refine ⟨?_, fun h => absurd h hcreate, fun h => absurd h hclose, ?_⟩
      · rw [hbs2]
        constructor
        · intro hlen
          omega
        · intro h
          exact absurd h hcreate
      · intro _ i _
        rw [hbs2]

/-- Witness for C2 amended at `pgC2`, `now = 400`: the break is created
at the `>=` boundary. -/
theorem update_time_callback_C2_amended_witness :
    (idle_break_step pgC2 400 none).break_sessions.length =
      pgC2.break_sessions.length + 1 :=
  ((update_time_callback_C2_amended pgC2 400 none (by decide)).1).mpr (by decide)

/-! ### C8: preservation of the session invariant -/

theorem SessionInv_of_eq (p p' : WTT_TimeData) (hs : p'.sessions = p.sessions)
    (ha : p'.active_session_index = p.active_session_index) (h : SessionInv p) :
    SessionInv p' := by
  rw [SessionInv, hs, ha]
  exact h

theorem countP_set_same {α : Type} (pB : α → Bool) :
    ∀ (l : List α) (i : Nat) (x : α) (h : i < l.length),
    pB (l.get ⟨i, h⟩) = pB x → (l.set i x).countP pB = l.countP pB := by
  intro l
  induction l with
  | nil =>
      intro i x h
      simp at h
  | cons a t ih =>
      intro i x h hx
      cases i with
      | zero =>
          simp only [List.get] at hx
          simp [List.countP_cons, hx]
      | succ i =>
          simp only [List.get] at hx
          have hlen : i < t.length := by
            simp at h
            omega
          simp only [List.set_cons_succ, List.countP_cons]
          rw [ih i x hlen hx]

/-- Any `start_session` result satisfies the invariant (at a positive
clock): the appended session is the unique open one, and the index
points at it. -/
theorem SessionInv_start (td : TimeData) (p : WTT_TimeData) (now : Int) (hnow : 0 < now) :
    SessionInv (start_sessionP td p now).1.2 := by
  rw [start_sessionP_eq]
  constructor
  · show openCount (p.sessions.map (close_session now) ++ [new_session_item p now]) ≤ 1
    rw [openCount, List.countP_append, countP_open_map_close now _ hnow]
    simp [List.countP_cons, openB, new_session_item]
  · intro _
    show ((p.sessions.map (close_session now) ++ [new_session_item p now]).map openB)[
        ((p.sessions.length : Int)).toNat]? = some true
    rw [Int.toNat_natCast, List.map_append]
    have hlen : p.sessions.length = ((p.sessions.map (close_session now)).map openB).length := by
      simp
    rw [hlen]
    simp [openB, new_session_item]

/-- `end_active_sessions` preserves the invariant. -/
theorem SessionInv_end (td : TimeData) (p : WTT_TimeData) (now : Int) (hnow : 0 < now)
    (hinv : SessionInv p) : SessionInv (end_active_sessionsP td p now).1.2 := by
  by_cases hc : openCount p.sessions = 0
  · rw [end_active_sessionsP_eq_zero td p now hc]
    exact hinv
  · rw [end_active_sessionsP_eq_pos td p now hc]
    constructor
    · show openCount (p.sessions.map (close_session now)) ≤ 1
      rw [openCount, countP_open_map_close now _ hnow]
      omega
    · intro h0
      have h0' : (0:Int) ≤ -1 := h0
      omega

/-- `reset_current_session` preserves the invariant: it only reopens
the session the invariant already guarantees to be the open one. -/
theorem SessionInv_reset_current (td : TimeData) (p : WTT_TimeData) (now : Int)
    (hinv : SessionInv p) : SessionInv (reset_current_sessionP td p now).1.2 := by
  by_cases hcond : 0 ≤ p.active_session_index ∧
      p.active_session_index < (p.sessions.length : Int)
  · have hidx : p.active_session_index.toNat < p.sessions.length := by omega
    have hopen : openB (p.sessions.get ⟨p.active_session_index.toNat, hidx⟩) = true := by
      have h2 := hinv.2 hcond.1
      rw [List.getElem?_map, List.getElem?_eq_getElem hidx] at h2
      simpa using h2
    rw [reset_current_sessionP_eq_pos td p now hcond.1 hcond.2]
    constructor
    · show openCount (p.sessions.set p.active_session_index.toNat
        { p.sessions.get ⟨p.active_session_index.toNat, by omega⟩ with
          start := now, «end» := 0 }) ≤ 1
      rw [openCount, countP_set_same openB p.sessions _ _ hidx (by rw [hopen]; rfl)]
      exact hinv.1
    · intro h0
      show ((p.sessions.set p.active_session_index.toNat
          { p.sessions.get ⟨p.active_session_index.toNat, by omega⟩ with
            start := now, «end» := 0 }).map openB)[p.active_session_index.toNat]? = some true
      rw [List.map_set]
      simp only [List.getElem?_set_self, List.length_map, hidx, if_pos]
      rfl
  · rw [reset_current_sessionP, dif_neg hcond]
    exact hinv

theorem idle_break_core_sessions (p : WTT_TimeData) (now : Int) (pref : Option Int) :
    (idle_break_core p now pref).sessions = p.sessions := by
  rw [idle_break_core]
  split
  · rfl
  · split
    · split
      · rfl
      · rfl
    · rfl

theorem idle_break_core_asi (p : WTT_TimeData) (now : Int) (pref : Option Int) :
    (idle_break_core p now pref).active_session_index = p.active_session_index := by
  rw [idle_break_core]
  split
  · rfl
  · split
    · split
      · rfl
      · rfl
    · rfl

theorem idle_break_step_sessions (p : WTT_TimeData) (now : Int) (pref : Option Int) :
    (idle_break_step p now pref).sessions = p.sessions := by
  rw [idle_break_step, idle_break_core_sessions]
  split
  · rfl
  · rfl

theorem idle_break_step_asi (p : WTT_TimeData) (now : Int) (pref : Option Int) :
    (idle_break_step p now pref).active_session_index = p.active_session_index := by
  rw [idle_break_step, idle_break_core_asi]
  split
  · rfl
  · rfl

set_option maxHeartbeats 2000000 in
/-- C8: in every state reachable from an empty session list by the
lifecycle operations, the handlers and timer updates (each at a
positive clock reading), at most one session is open, and a
non-negative `active_session_index` always points at an existing open
session. -/
theorem session_invariant_C8 (σ : TimeData × WTT_TimeData) (h : Reachable σ) :
    SessionInv σ.2 := by
  induction h with
  | init t0 =>
      constructor
      · show openCount ([] : List WTT_TimeSession) ≤ 1
        decide
      · intro h0
        have h0' : (0:Int) ≤ -1 := h0
        omega
  | step σ σ' hr hs ih =>
      cases hs with
      | start_session td p td' p' now ret hnow h =>
          replace h : (((start_sessionP td p now).1.1, some (start_sessionP td p now).1.2),
              (start_sessionP td p now).2) = ((td', some p'), ret) := h
          simp only [Prod.mk.injEq, Option.some.injEq] at h
          obtain ⟨⟨h1, h2⟩, h3⟩ := h
          subst h2
          exact SessionInv_start td p now hnow
      | switch_session td p td' p' now ret hnow h =>
          replace h : ((((save_dataP
              (start_sessionP (end_active_sessionsP td p now).1.1
                (end_active_sessionsP td p now).1.2 now).1.1
              (start_sessionP (end_active_sessionsP td p now).1.1
                (end_active_sessionsP td p now).1.2 now).1.2 now).1,
              some (save_dataP
              (start_sessionP (end_active_sessionsP td p now).1.1
                (end_active_sessionsP td p now).1.2 now).1.1
              (start_sessionP (end_active_sessionsP td p now).1.1
                (end_active_sessionsP td p now).1.2 now).1.2 now).2), true) :
              (TimeData × Option WTT_TimeData) × Bool) = ((td', some p'), ret) := h
          simp only [Prod.mk.injEq, Option.some.injEq] at h
          obtain ⟨⟨h1, h2⟩, h3⟩ := h
          subst h2
          exact SessionInv_of_eq _ _ rfl rfl (SessionInv_start _ _ now hnow)
      | end_active_sessions td p td' p' now n hnow h =>
          replace h : (((end_active_sessionsP td p now).1.1,
              some (end_active_sessionsP td p now).1.2),
              (end_active_sessionsP td p now).2) = ((td', some p'), n) := h
          simp only [Prod.mk.injEq, Option.some.injEq] at h
          obtain ⟨⟨h1, h2⟩, h3⟩ := h
          subst h2
          exact SessionInv_end td p now hnow ih
      | reset td p td' p' now hnow h =>
          replace h : ((resetP td p now).1, some (resetP td p now).2) = (td', some p') := h
          simp only [Prod.mk.injEq, Option.some.injEq] at h
          obtain ⟨h1, h2⟩ := h
          subst h2
          exact SessionInv_start _ _ now hnow
      | reset_current_session td p td' p' now ret hnow h =>
          replace h : (((reset_current_sessionP td p now).1.1,
              some (reset_current_sessionP td p now).1.2),
              (reset_current_sessionP td p now).2) = ((td', some p'), ret) := h
          simp only [Prod.mk.injEq, Option.some.injEq] at h
          obtain ⟨⟨h1, h2⟩, h3⟩ := h
          subst h2
          exact SessionInv_reset_current td p now ih
      | load_handler td p td' p' fb now hnow h =>
          by_cases hdl : td.data_loaded = true
          · rw [load_handler, if_pos hdl] at h
            simp only [Prod.mk.injEq, Option.some.injEq] at h
            obtain ⟨h1, h2⟩ := h
            subst h2
            exact ih
          · rw [load_handler, if_neg hdl] at h
            simp only [load_data, start_session, Prod.mk.injEq, Option.some.injEq] at h
            obtain ⟨h1, h2⟩ := h
            subst h2
            exact SessionInv_start _ _ now hnow
      | save_handler td p td' p' fb now hnow h =>
          cases fb with
          | none =>
              replace h : ((save_dataP td p now).1, some (save_dataP td p now).2) =
                  (td', some p') := h
              simp only [Prod.mk.injEq, Option.some.injEq] at h
              obtain ⟨h1, h2⟩ := h
              subst h2
              exact SessionInv_of_eq _ _ rfl rfl ih
          | some b =>
              replace h : ((save_dataP { td with file_id := some b } p now).1,
                  some (save_dataP { td with file_id := some b } p now).2) =
                  (td', some p') := h
              simp only [Prod.mk.injEq, Option.some.injEq] at h
              obtain ⟨h1, h2⟩ := h
              subst h2
              exact SessionInv_of_eq _ _ rfl rfl ih
      | update_time_callback td p td' p' now pref fb hnow h =>
          cases fb with
          | none =>
              replace h : ((update_total_timeP td (idle_break_step p now pref) now).1,
                  some (update_total_timeP td (idle_break_step p now pref) now).2) =
                  (td', some p') := h
              simp only [Prod.mk.injEq, Option.some.injEq] at h
              obtain ⟨h1, h2⟩ := h
              subst h2
              exact SessionInv_of_eq p _ (idle_break_step_sessions p now pref)
                (idle_break_step_asi p now pref) ih
          | some b =>
              have hred : update_time_callback td (some p) now pref (some b) =
                  (if td.file_id ≠ some b then
                    ((save_dataP
                      (start_sessionP
                        { (end_active_sessionsP
                            (update_total_timeP td (idle_break_step p now pref) now).1
                            (update_total_timeP td (idle_break_step p now pref) now).2
                            now).1.1 with file_id := some b }
                        (end_active_sessionsP
                            (update_total_timeP td (idle_break_step p now pref) now).1
                            (update_total_timeP td (idle_break_step p now pref) now).2
                            now).1.2 now).1.1
                      (start_sessionP
                        { (end_active_sessionsP
                            (update_total_timeP td (idle_break_step p now pref) now).1
                            (update_total_timeP td (idle_break_step p now pref) now).2
                            now).1.1 with file_id := some b }
                        (end_active_sessionsP
                            (update_total_timeP td (idle_break_step p now pref) now).1
                            (update_total_timeP td (idle_break_step p now pref) now).2
                            now).1.2 now).1.2 now).1,
                     some (save_dataP
                      (start_sessionP
                        { (end_active_sessionsP
                            (update_total_timeP td (idle_break_step p now pref) now).1
                            (update_total_timeP td (idle_break_step p now pref) now).2
                            now).1.1 with file_id := some b }
                        (end_active_sessionsP
                            (update_total_timeP td (idle_break_step p now pref) now).1
                            (update_total_timeP td (idle_break_step p now pref) now).2
                            now).1.2 now).1.1
                      (start_sessionP
                        { (end_active_sessionsP
                            (update_total_timeP td (idle_break_step p now pref) now).1
                            (update_total_timeP td (idle_break_step p now pref) now).2
                            now).1.1 with file_id := some b }
                        (end_active_sessionsP
                            (update_total_timeP td (idle_break_step p now pref) now).1
                            (update_total_timeP td (idle_break_step p now pref) now).2
                            now).1.2 now).1.2 now).2)
                   else ((update_total_timeP td (idle_break_step p now pref) now).1,
                     some (update_total_timeP td (idle_break_step p now pref) now).2)) := rfl
              rw [hred] at h
              by_cases hfid : td.file_id ≠ some b
              · rw [if_pos hfid] at h
                simp only [Prod.mk.injEq, Option.some.injEq] at h
                obtain ⟨h1, h2⟩ := h
                subst h2
                exact SessionInv_of_eq _ _ rfl rfl (SessionInv_start _ _ now hnow)
              · rw [if_neg hfid] at h
                simp only [Prod.mk.injEq, Option.some.injEq] at h
                obtain ⟨h1, h2⟩ := h
                subst h2
                exact SessionInv_of_eq p _ (idle_break_step_sessions p now pref)
                  (idle_break_step_asi p now pref) ih

/-- Witness for C8: the initial state is reachable and satisfies the
invariant. -/
theorem session_invariant_C8_witness :
    SessionInv (TimeData.init 0, ({} : WTT_TimeData)).2 :=
  session_invariant_C8 _ (Reachable.init 0)

end WTT
